import Mathlib

/-!
Verification of the per-metric cleaning pipeline of the Samsung Health data
cleaner (file_cleaner.py, with the interactive variant health_dashboard.py).

Tabular cells are modelled by the type Value: a numeric cell (pandas float,
modelled as a rational), a string cell, or the missing sentinel (NaN/NaT).
Library primitives used by the source (pd.to_numeric, pd.to_datetime, the
Python float and round builtins, string formatting) are modelled on the
value domain actually produced by the export files: decimal numeric
literals and ISO-style "YYYY-MM-DD HH:MM:SS(.mmm)" timestamps.
-/

/-- One cell of a table: a number (pandas float), a string, or missing (NaN). -/
inductive Value where
  | num (q : ℚ)
  | str (s : String)
  | na
deriving Repr, DecidableEq

/-- Numeric value of a digit character. -/
def digitVal (c : Char) : ℕ := c.toNat - 48

/-- Value of a digit string, most significant first. -/
def natFromDigits (cs : List Char) : ℕ := cs.foldl (fun a c => 10 * a + digitVal c) 0

/-- Parse an unsigned decimal literal: digits, optionally with a fractional
part after a dot (at least one digit overall).  Models the common case of
the Python float conversion and pandas to_numeric on the export data;
exotic forms (exponents, inf, nan, whitespace) are out of the modelled
value domain and fail here. -/
def parseUnsignedDecimal (cs : List Char) : Option ℚ :=
  let ip := cs.takeWhile Char.isDigit
  let rest := cs.dropWhile Char.isDigit
  match rest with
  | [] => if ip.isEmpty then none else some (natFromDigits ip)
  | '.' :: fp =>
    if fp.all Char.isDigit && !(ip.isEmpty && fp.isEmpty) then
      some ((natFromDigits ip : ℚ) + (natFromDigits fp : ℚ) / (10 : ℚ) ^ fp.length)
    else none
  | _ => none

/-- Parse a signed decimal literal. -/
def parseDecimal (s : String) : Option ℚ :=
  match s.data with
  | '-' :: cs => (parseUnsignedDecimal cs).map (fun q => -q)
  | '+' :: cs => parseUnsignedDecimal cs
  | cs => parseUnsignedDecimal cs

/-- pd.to_numeric with errors="coerce" on one cell: numbers pass through,
parseable strings become numbers, everything else becomes NaN. -/
def toNumV (v : Value) : Value :=
  match v with
  | Value.num q => Value.num q
  | Value.na => Value.na
  | Value.str s =>
    match parseDecimal s with
    | some q => Value.num q
    | none => Value.na

/-- The numeric reading of a cell after coercion, as an Option. -/
def toNumQ (v : Value) : Option ℚ :=
  match toNumV v with
  | Value.num q => some q
  | _ => none

/-- Truncation toward zero, the semantics of the Python int builtin on a float. -/
def truncQ (q : ℚ) : ℤ := if 0 ≤ q then ⌊q⌋ else ⌈q⌉

/-- The Python round builtin to an integer: nearest, ties to even. -/
def pyRound (q : ℚ) : ℤ :=
  let f := ⌊q⌋
  let r := q - (f : ℚ)
  if r < 1 / 2 then f
  else if 1 / 2 < r then f + 1
  else if Even f then f else f + 1

/-- Python format spec 02 on an integer: pad with a leading zero to width two. -/
def pad2 (n : ℤ) : String :=
  let s := toString n
  if s.length < 2 then "0" ++ s else s

/-- Lexicographic strict comparison of character lists, by code point: the
comparison Python applies to strings, hence the one pandas sort_values uses
on an object (string) column. -/
def lexLtB : List Char → List Char → Bool
  | [], [] => false
  | [], _ :: _ => true
  | _ :: _, [] => false
  | a :: as, b :: bs => if a < b then true else if b < a then false else lexLtB as bs

/-- Non-strict string comparison derived from the strict one. -/
def strLeB (a b : String) : Bool := !(lexLtB b.data a.data)

/-- A parsed timestamp. -/
structure Ts where
  year : ℕ
  month : ℕ
  day : ℕ
  hour : ℕ
  minute : ℕ
  second : ℕ
  millis : ℕ
deriving Repr, DecidableEq

/-- Range-check and assemble a timestamp from its digit characters. -/
def mkTs (y1 y2 y3 y4 m1 m2 d1 d2 h1 h2 n1 n2 s1 s2 : Char) (ms : ℕ) : Option Ts :=
  if ([y1, y2, y3, y4, m1, m2, d1, d2, h1, h2, n1, n2, s1, s2].all Char.isDigit) then
    let mo := natFromDigits [m1, m2]
    let dy := natFromDigits [d1, d2]
    let hh := natFromDigits [h1, h2]
    let mi := natFromDigits [n1, n2]
    let ss := natFromDigits [s1, s2]
    if 1 ≤ mo && mo ≤ 12 && 1 ≤ dy && dy ≤ 31 && hh ≤ 23 && mi ≤ 59 && ss ≤ 59 then
      some ⟨natFromDigits [y1, y2, y3, y4], mo, dy, hh, mi, ss, ms⟩
    else none
  else none

/-- pd.to_datetime with errors="coerce" on one string cell, modelled for the
timestamp shapes the export emits: "YYYY-MM-DD HH:MM:SS.mmm" and
"YYYY-MM-DD HH:MM:SS".  Any other string is unparseable and coerces to NaT
(None here). -/
def parseTs (s : String) : Option Ts :=
  match s.data with
  | [y1, y2, y3, y4, '-', m1, m2, '-', d1, d2, ' ',
     h1, h2, ':', n1, n2, ':', s1, s2, '.', f1, f2, f3] =>
    if ([f1, f2, f3].all Char.isDigit) then
      mkTs y1 y2 y3 y4 m1 m2 d1 d2 h1 h2 n1 n2 s1 s2 (natFromDigits [f1, f2, f3])
    else none
  | [y1, y2, y3, y4, '-', m1, m2, '-', d1, d2, ' ',
     h1, h2, ':', n1, n2, ':', s1, s2] =>
    mkTs y1 y2 y3 y4 m1 m2 d1 d2 h1 h2 n1 n2 s1 s2 0
  | _ => none

/-- The calendar-day key of a timestamp (the .dt.date accessor), encoded as
a single natural number that orders and equates days correctly. -/
def tsDayKey (t : Ts) : ℕ := t.year * 10000 + t.month * 100 + t.day

/-- Chronological key of a timestamp: lexicographic over the fields. -/
def tsKey (t : Ts) : ℕ :=
  (((((t.year * 100 + t.month) * 100 + t.day) * 100 + t.hour) * 100 + t.minute) * 100
      + t.second) * 1000 + t.millis

/-- DEFAULT_DROP_COLS of file_cleaner.py: columns removed from every metric. -/
def DEFAULT_DROP_COLS : List String :=
  ["create_sh_ver", "modify_sh_ver", "update_time", "datauuid", "pkg_name", "deviceuuid",
   "client_data_ver", "client_data_id", "time_offset", "comment", "custom", "data_version",
   "extra_data", "binning_data", "source", "tag_id", "day_time"]

/-- One entry of CLEANING_CONFIG. -/
structure MetricConfig where
  filePat : String
  output_name : String
  drop_cols : List String
deriving Repr, DecidableEq

/-- CLEANING_CONFIG of file_cleaner.py: the static metric registry. -/
def CLEANING_CONFIG : List (String × MetricConfig) :=
  [("vitality", ⟨"com.samsung.shealth.vitality_score.*.csv", "vitality_score.csv",
      ["shr_calculation_index", "shrv_calculation_index"]⟩),
   ("sleep", ⟨"com.samsung.shealth.sleep.*.csv", "sleep.csv",
      ["total_sleep_time_weight", "original_efficiency", "has_sleep_data", "combined_id",
       "is_integrated", "integrated_id", "original_wake_up_time", "original_bed_time"]⟩),
   ("sleep_stage", ⟨"com.samsung.health.sleep_stage.*.csv", "sleep_stage.csv",
      ["sleep_id"]⟩),
   ("sleep_goal", ⟨"com.samsung.shealth.sleep_goal.*.csv", "sleep_goal.csv",
      ["set_time"]⟩),
   ("sleep_snoring", ⟨"com.samsung.shealth.sleep_snoring.*.csv", "sleep_snoring.csv",
      ["start_time", "end_time"]⟩),
   ("oxygen_saturation", ⟨"com.samsung.shealth.tracker.oxygen_saturation.*.csv",
      "oxygen_saturation.csv",
      ["end_time", "heart_rate", "start_time", "integrated_id", "binning"]⟩),
   ("heart_rate", ⟨"com.samsung.shealth.tracker.heart_rate.*.csv", "heart_rate.csv",
      ["heart_beat_count", "start_time", "end_time"]⟩),
   ("pedometer_day_summary", ⟨"com.samsung.shealth.tracker.pedometer_day_summary.*.csv",
      "pedometer_day_summary.csv",
      ["source_package_name", "source_info", "achievement"]⟩),
   ("weight", ⟨"com.samsung.health.weight.*.csv", "weight.csv",
      ["start_time", "end_time"]⟩),
   ("advanced_glycation_endproduct", ⟨"com.samsung.health.advanced_glycation_endproduct.*.csv",
      "advanced_glycation_endproduct.csv",
      ["start_time", "end_time", "level_boundary", "version"]⟩),
   ("antioxidant", ⟨"com.samsung.health.antioxidant.*.csv", "antioxidant.csv",
      ["start_time", "end_time"]⟩),
   ("ecg", ⟨"com.samsung.health.ecg.*.csv", "ecg.csv",
      ["start_time", "end_time", "ecg_version", "sample_frequency", "shm_data_id",
       "shm_device_uuid", "shm_update_time", "chart_data", "shm_create_time", "ecg_version",
       "data_mime", "data", "sample_count"]⟩),
   ("floors_climbed", ⟨"com.samsung.health.floors_climbed.*.csv", "floors_climbed.csv",
      ["start_time", "end_time", "raw_data"]⟩),
   ("food_info", ⟨"com.samsung.health.food_info.*.csv", "food_info.csv",
      ["start_time", "end_time", "description", "provider_food_id", "info_provider"]⟩),
   ("food_intake", ⟨"com.samsung.health.food_intake.*.csv", "food_intake.csv",
      ["start_time", "end_time", "food_info_id"]⟩),
   ("nutrition", ⟨"com.samsung.health.nutrition.*.csv", "nutrition.csv",
      ["start_time", "end_time"]⟩),
   ("respiratory_rate", ⟨"com.samsung.health.respiratory_rate.*.csv", "respiratory_rate.csv",
      ["start_time", "end_time", "pplib_version"]⟩),
   ("skin_temperature", ⟨"com.samsung.health.skin_temperature.*.csv", "skin_temperature.csv",
      ["start_time", "end_time"]⟩),
   ("sleep_apnea", ⟨"com.samsung.health.sleep_apnea.*.csv", "sleep_apnea.csv",
      ["start_time", "end_time", "shm_start_time", "shm_data_id", "shm_device_id",
       "start_time_offset", "shm_create_time", "shm_update_time", "shm_device_uuid"]⟩),
   ("user_profile", ⟨"com.samsung.health.user_profile.*.csv", "user_profile.csv", []⟩),
   ("activity_day_summary", ⟨"com.samsung.shealth.activity.day_summary.*.csv",
      "activity_day_summary.csv",
      ["start_time", "end_time"]⟩),
   ("blood_pressure", ⟨"com.samsung.shealth.blood_pressure.*.csv", "blood_pressure.csv",
      ["start_time", "end_time", "shm_create_time", "shm_update_time", "shm_data_id",
       "shm_device_uuid", "calibration_id"]⟩),
   ("breathing", ⟨"com.samsung.shealth.breathing.*.csv", "breathing.csv",
      ["start_time", "end_time", "shm_data_id", "shm_device_uuid", "shm_create_time",
       "shm_update_time"]⟩),
   ("calories_burned_details", ⟨"com.samsung.shealth.calories_burned.details.*.csv",
      "calories_burned_details.csv",
      ["start_time", "end_time", "version"]⟩),
   ("exercise", ⟨"com.samsung.shealth.exercise.*.csv", "exercise.csv",
      ["start_time", "end_time", "exercise_id", "heart_rate", "program", "live_data_internal",
       "routine_datauuid", "pace_info_id", "sensing_status", "location_data_internal",
       "custom_id", "location_data", "live_data", "schedule", "program_uuid", "coach_id",
       "source_data"]⟩),
   ("mean_arterial_pressure", ⟨"com.samsung.shealth.mean_arterial_pressure.*.csv",
      "mean_arterial_pressure.csv",
      ["start_time", "end_time"]⟩)]

/-- The characters after the last dot (the whole list when no dot occurs):
the last piece of a split on dots. -/
def lastSegAux : List Char → List Char → List Char
  | [], acc => acc.reverse
  | '.' :: rest, _ => lastSegAux rest []
  | c :: rest, acc => lastSegAux rest (c :: acc)

/-- STEP 1 of clean_health_data: keep only the substring after the last dot
of a column label, the Python expression col.split(".")[-1]. -/
def stripCol (c : String) : String := String.mk (lastSegAux c.data [])

/-- The three temporal key columns, in their fixed output order. -/
def timeColOrder : List String := ["create_time", "start_time", "end_time"]

/-- STEPS 1, 2 and 4 of clean_health_data on the header row: strip prefixes,
drop the metric and universal drop columns (errors="ignore"), then move the
present temporal key columns to the front in their fixed order, keeping the
relative order of the remaining columns. -/
def normalizeCols (dropCols : List String) (cols : List String) : List String :=
  let stripped := cols.map stripCol
  let kept := stripped.filter (fun c => !((dropCols ++ DEFAULT_DROP_COLS).contains c))
  let ordPre := timeColOrder.filter (fun c => kept.contains c)
  let remaining := kept.filter (fun c => !(ordPre.contains c))
  ordPre ++ remaining

/-- What C4 asserts of a normalized header: no dropped column survives,
the present temporal keys come first in their fixed relative order, and
the remaining columns keep their original relative order. -/
def NormalizedColsOk (dropCols : List String) (cols out : List String) : Prop :=
  (∀ c ∈ out, c ∉ dropCols ∧ c ∉ DEFAULT_DROP_COLS)
  ∧ ∃ pre rem, out = pre ++ rem
      ∧ List.Sublist pre timeColOrder
      ∧ (∀ c ∈ timeColOrder, c ∈ out → c ∈ pre)
      ∧ (∀ c ∈ rem, c ∉ timeColOrder)
      ∧ List.Sublist rem (cols.map stripCol)

/-- Is a cell the missing sentinel. -/
def Value.isNa : Value → Bool
  | Value.na => true
  | _ => false

/-- Is a cell a Python string. -/
def Value.isStr : Value → Bool
  | Value.str _ => true
  | _ => false

/-- A column has a numeric pandas dtype exactly when no cell is a string
(an all-numeric or all-missing column is float dtype; any string makes it
object dtype).  Models pd.api.types.is_numeric_dtype on a column. -/
def isNumericCol (col : List Value) : Bool := col.all (fun v => !v.isStr)

/-- A column has object dtype when some cell is a string. -/
def isObjectCol (col : List Value) : Bool := col.any (fun v => v.isStr)

/-- Series.map with a numeric-keyed dict after pd.to_numeric coercion:
parseable codes found in the mapping become their label, everything else
becomes NaN. -/
def mapEnum (mapping : List (ℚ × String)) (v : Value) : Value :=
  match toNumQ v with
  | some q =>
    match mapping.lookup q with
    | some lab => Value.str lab
    | none => Value.na
  | none => Value.na

/-- The batch (file_cleaner) decode shape for one enum column carried by
rows of (enum cell, rest of row): to_numeric coercion, dict map, and, when
the metric drops unmapped codes, dropna on the column. -/
def decodeBatch {α : Type} (mapping : List (ℚ × String)) (drop : Bool)
    (rows : List (Value × α)) : List (Value × α) :=
  let mapped := rows.map (fun r => (mapEnum mapping r.1, r.2))
  if drop then mapped.filter (fun r => !(r.1.isNa)) else mapped

/-- The dashboard decode shape: the same map, but guarded by the numeric
dtype check on the column, so an already-decoded (string) column is left
alone. -/
def decodeDash {α : Type} (mapping : List (ℚ × String)) (drop : Bool)
    (rows : List (Value × α)) : List (Value × α) :=
  if isNumericCol (rows.map Prod.fst) then decodeBatch mapping drop rows else rows

def sleep_stage_mapping : List (ℚ × String) :=
  [(40001, "Awake"), (40002, "Light sleep"), (40003, "Deep sleep"), (40004, "REM sleep")]

def symptom_mapping : List (ℚ × String) :=
  [(0, "None"), (1, "Shortness of breath"), (2, "Fatigue"), (3, "Dizziness"),
   (4, "Chest pain/pressure"), (5, "Palpitations"), (6, "Faintness")]

def classification_mapping : List (ℚ × String) :=
  [(1, "Sinus rhythm"), (2, "Atrial fibrillation"), (3, "Inconclusive"), (4, "Poor recording")]

def meal_type_mapping : List (ℚ × String) :=
  [(100001, "Breakfast"), (100002, "Lunch"), (100003, "Dinner"), (100004, "Morning snack"),
   (100005, "Afternoon snack"), (100006, "Evening snack")]

def outlier_mapping : List (ℚ × String) := [(0, "valid"), (1, "outlier")]

def exercise_mapping : List (ℚ × String) :=
  [(1001, "Walking"), (1002, "Running"), (2001, "Cycling"), (2002, "Mountain biking"),
   (3001, "Hiking"), (4001, "Swimming"), (5001, "Elliptical trainer"), (6001, "Rowing machine"),
   (7001, "Circuit training"), (8001, "Weight machine"), (9001, "Stretching"), (9002, "Yoga"),
   (10001, "Yoga"), (10002, "Pilates"), (11001, "Other workout")]

def map_type_mapping : List (ℚ × String) :=
  [(1, "Calibration/Initialization"), (2, "Reference measurement"), (3, "Measurement")]

/-- The exercise_type decode of file_cleaner: coerce, map, fill the
unmapped ones with the literal label, then the (now vacuous) dropna. -/
def decodeExercise {α : Type} (rows : List (Value × α)) : List (Value × α) :=
  let mapped := rows.map (fun r => (mapEnum exercise_mapping r.1, r.2))
  let filled := mapped.map (fun r => (if r.1.isNa then Value.str "Other/Unknown" else r.1, r.2))
  filled.filter (fun r => !(r.1.isNa))

/-- Python str.strip on a character list: drop whitespace at both ends. -/
def trimChars (cs : List Char) : List Char :=
  ((cs.dropWhile Char.isWhitespace).reverse.dropWhile Char.isWhitespace).reverse

/-- Strict Python int() parse of a trimmed string: optional sign, digits. -/
def parseIntStrict (cs : List Char) : Option ℤ :=
  match cs with
  | '-' :: ds => if ds ≠ [] ∧ ds.all Char.isDigit then some (-(natFromDigits ds : ℤ)) else none
  | '+' :: ds => if ds ≠ [] ∧ ds.all Char.isDigit then some (natFromDigits ds : ℤ) else none
  | ds => if ds ≠ [] ∧ ds.all Char.isDigit then some (natFromDigits ds : ℤ) else none

/-- extract_symptom_id of the source: NaN gives 0; a string is stripped,
the empty list "[]" gives 0, otherwise brackets are removed, the part
before the first comma is stripped and int-parsed, with parse failure
giving 0.  A numeric cell gives 0, modelling that a float round-trips
through the str() call as a literal with a dot that the int() parse
rejects (such cells cannot occur in a bracketed symptoms column anyway). -/
def extract_symptom_id (v : Value) : ℚ :=
  match v with
  | Value.na => 0
  | Value.num _ => 0
  | Value.str s =>
    let t := trimChars s.data
    if t = [] ∨ t = ['[', ']'] then 0
    else
      let noBr := t.filter (fun c => !(c == '[' || c == ']'))
      let firstPiece := trimChars (noBr.takeWhile (fun c => !(c == ',')))
      match parseIntStrict firstPiece with
      | some n => (n : ℚ)
      | none => 0

/-- A cell contains an opening bracket once rendered by astype(str);
NaN renders as "nan" and numbers as numeric literals, neither of which
contains a bracket. -/
def containsBracketB (v : Value) : Bool :=
  match v with
  | Value.str s => s.data.contains '['
  | _ => false

/-- The dashboard symptoms decode: guarded by the object-dtype check and
the bracket scan, then extract_symptom_id composed with the symptom map. -/
def decodeDashSymptoms {α : Type} (rows : List (Value × α)) : List (Value × α) :=
  if isObjectCol (rows.map Prod.fst) && (rows.map Prod.fst).any containsBracketB then
    rows.map (fun r => (mapEnum symptom_mapping (Value.num (extract_symptom_id r.1)), r.2))
  else rows

/-- The Python float call on a cell: none is an exception (ValueError or
TypeError, caught by the source), some none is a NaN float. -/
def pyFloatV (v : Value) : Option (Option ℚ) :=
  match v with
  | Value.num q => some (some q)
  | Value.na => some none
  | Value.str s =>
    match parseDecimal s with
    | some q => some (some q)
    | none => none

/-- convert_to_hhmm of file_cleaner: best-effort conversion of a
millisecond offset to an HH:MM string; 24 hours are added first for the
sleep_time column; unparseable and missing values are returned
unchanged. -/
def convert_to_hhmm (val : Value) (colName : String) : Value :=
  match pyFloatV val with
  | none => val
  | some none => val
  | some (some q) =>
    let hoursDec := q / 3600000
    let hd := if colName = "sleep_time" then 24 + hoursDec else hoursDec
    let h := truncQ hd
    let m := pyRound ((hd - (h : ℚ)) * 60)
    if m = 60 then Value.str (pad2 (h + 1) ++ ":" ++ pad2 0)
    else Value.str (pad2 h ++ ":" ++ pad2 m)

/-- The HH:MM rendering as the specification words it: divide by 3600000
to get decimal hours, optionally add 24 hours, truncate to the integer
hour, round the fractional remainder to the nearest minute and carry a
rounded 60 into the next hour. -/
def hhmmSpecString (q : ℚ) (addDay : Bool) : String :=
  let hours := (if addDay then 24 else 0) + q / 3600000
  let h := truncQ hours
  let frac := hours - (h : ℚ)
  let m := pyRound (frac * 60)
  if m = 60 then pad2 (h + 1) ++ ":" ++ pad2 0 else pad2 h ++ ":" ++ pad2 m

/-- The sleep-goal time conversion as the specification describes it. -/
def convertSpec (val : Value) (colName : String) : Value :=
  match pyFloatV val with
  | some (some q) => Value.str (hhmmSpecString q (colName = "sleep_time"))
  | _ => val

/-- Sort order used for the sleep-goal dedup: descending by the
create_time string, as sort_values(ascending=False) on an object column. -/
def goalGE {α : Type} (a b : String × α) : Prop := strLeB b.1 a.1 = true

instance goalGEDec {α : Type} : DecidableRel (@goalGE α) :=
  fun a b => inferInstanceAs (Decidable (strLeB b.1 a.1 = true))

/-- Sleep-goal post-processing of file_cleaner: sort the merged rows by
create_time descending and keep only the first row (head(1)). -/
def sleepGoalPost {α : Type} (rows : List (String × α)) : List (String × α) :=
  (List.insertionSort goalGE rows).take 1

/-- One merged sleep_snoring row: the two columns the rollup uses. -/
structure SnorRow where
  create_time : Value
  duration : Value
deriving Repr, DecidableEq

/-- The day key of a snoring row: to_datetime(errors="coerce") followed by
the .dt.date accessor; non-strings and unparseable strings give NaT. -/
def dayOf (v : Value) : Option ℕ :=
  match v with
  | Value.str s => (parseTs s).map tsDayKey
  | _ => none

/-- to_numeric coercion followed by fillna(0). -/
def numOrZero (v : Value) : ℚ :=
  match toNumQ v with
  | some q => q
  | none => 0

/-- ms_to_hhmm of file_cleaner: int(ms/60000) total minutes, then
floor-divide and mod by 60 (Python // and %). -/
def msToHhmm (ms : ℚ) : String :=
  let total := truncQ (ms / 60000)
  pad2 (Int.fdiv total 60) ++ ":" ++ pad2 (Int.fmod total 60)

/-- The minute count as the claim words it: floor of ms/60000 instead of
the int() truncation the source performs. -/
def msToHhmmFloor (ms : ℚ) : String :=
  let total := ⌊ms / 60000⌋
  pad2 (Int.fdiv total 60) ++ ":" ++ pad2 (Int.fmod total 60)

/-- The day and coerced duration columns of the snoring table: rows whose
create_time does not parse carry the NaT day key and are left out, since
groupby skips missing keys. -/
def snorParsed (rows : List SnorRow) : List (ℕ × ℚ) :=
  rows.filterMap (fun r => (dayOf r.create_time).map (fun d => (d, numOrZero r.duration)))

/-- The group keys of the snoring rollup: the distinct days present, in
ascending order, as groupby produces them. -/
def snorDays (rows : List SnorRow) : List ℕ :=
  List.insertionSort (fun a b : ℕ => a ≤ b) (((snorParsed rows).map Prod.fst).dedup)

/-- The summed duration of one day group. -/
def snorSum (rows : List SnorRow) (d : ℕ) : ℚ :=
  (((snorParsed rows).filter (fun p => p.1 == d)).map Prod.snd).sum

/-- Sleep-snoring post-processing of file_cleaner: parse create_time
(dropping unparseable rows via the NaT group key), coerce duration with
fillna(0), group by calendar day summing durations (groupby sorts its
keys ascending and skips the NaT key), and render each sum as HH:MM. -/
def snoringPost (rows : List SnorRow) : List (ℕ × String) :=
  (snorDays rows).map (fun d => (d, msToHhmm (snorSum rows d)))

/-- One merged mean_arterial_pressure row: create_time (the sort key, a
string in the export), the type column (field ty, since type is reserved),
the measurement column, and the remaining cells. -/
structure MapRow (α : Type) where
  create_time : String
  ty : Value
  measurement : Value
  rest : α
deriving Repr, DecidableEq

/-- The type and measurement coercion of the MAP post-processing. -/
def mapCoerce {α : Type} (rows : List (MapRow α)) : List (MapRow α) :=
  rows.map (fun r => { r with ty := toNumV r.ty, measurement := toNumV r.measurement })

/-- Ascending create_time order on MAP rows, as sort_values uses it. -/
def mapRowLE {α : Type} (a b : MapRow α) : Prop := strLeB a.create_time b.create_time = true

instance mapRowLEDec {α : Type} : DecidableRel (@mapRowLE α) :=
  fun a b => inferInstanceAs (Decidable (strLeB a.create_time b.create_time = true))

/-- The global create_time sort of the MAP post-processing. -/
def mapSort {α : Type} (rows : List (MapRow α)) : List (MapRow α) :=
  List.insertionSort mapRowLE rows

/-- Coercion followed by the global sort: the state of the table just
before the reference propagation. -/
def mapPrep {α : Type} (rows : List (MapRow α)) : List (MapRow α) :=
  mapSort (mapCoerce rows)

/-- One step of measurement.where(type == 2).ffill(): a type-2 row with a
present measurement becomes the new carried reference; anything else
keeps the previous one (the masked cell is NaN and ffill skips it). -/
def ffillUpd {α : Type} (acc : Value) (r : MapRow α) : Value :=
  if r.ty = Value.num 2 ∧ ¬(r.measurement = Value.na) then r.measurement else acc

/-- The refs series: measurement.where(type == 2).ffill() starting from
no reference. -/
def ffillAux {α : Type} (acc : Value) : List (MapRow α) → List Value
  | [] => []
  | r :: rs =>
    let a := ffillUpd acc r
    a :: ffillAux a rs

/-- NaN-propagating addition of two cells. -/
def addV : Value → Value → Value
  | Value.num a, Value.num b => Value.num (a + b)
  | _, _ => Value.na

/-- Series.map with the numeric-keyed type-label dict. -/
def typeLabel (v : Value) : Value :=
  match v with
  | Value.num q =>
    match map_type_mapping.lookup q with
    | some lab => Value.str lab
    | none => Value.na
  | _ => Value.na

/-- The row-wise effect of the MAP reconstruction: type-3 rows get
reference plus original measurement, and the type code is labelled. -/
def mapReconStep {α : Type} (ref : Value) (r : MapRow α) : MapRow α :=
  { r with
    measurement := if r.ty = Value.num 3 then addV ref r.measurement else r.measurement,
    ty := typeLabel r.ty }

/-- The reconstruction relative to a carried reference: zip the rows with
their refs series and apply the row-wise step. -/
def mapReconAux {α : Type} (acc : Value) (rows : List (MapRow α)) : List (MapRow α) :=
  (rows.zip (ffillAux acc rows)).map (fun p => mapReconStep p.2 p.1)

/-- The masked assignment loc[type == 3, measurement] = refs + measurement
followed by the type labelling, on the sorted table: the refs series
starts with no reference. -/
def mapRecon {α : Type} (rows : List (MapRow α)) : List (MapRow α) :=
  mapReconAux Value.na rows

/-- The whole MAP post-processing: coerce, sort globally by create_time,
propagate references, reconstruct type-3 measurements, label types. -/
def mapPost {α : Type} (rows : List (MapRow α)) : List (MapRow α) :=
  mapRecon (mapPrep rows)

/-- The reference the specification describes, relative to a fallback: the
measurement of the most recent type-2 row carrying a measurement in the
given prefix, else the fallback. -/
def refSpecD {α : Type} (acc : Value) (pre : List (MapRow α)) : Value :=
  match pre.reverse.find? (fun r => decide (r.ty = Value.num 2 ∧ ¬(r.measurement = Value.na))) with
  | some r => r.measurement
  | none => acc

/-- The forward-filled reference of a row preceded by the given prefix. -/
def refSpec {α : Type} (pre : List (MapRow α)) : Value := refSpecD Value.na pre

/-- A character slot of a fixed-format string: a fixed literal or a digit. -/
inductive Slot where
  | lit (c : Char)
  | dig
deriving Repr, DecidableEq

/-- Does a character list fit a slot shape. -/
def slotMatch : List Char → List Slot → Bool
  | [], [] => true
  | c :: cs, Slot.lit d :: ss => c == d && slotMatch cs ss
  | c :: cs, Slot.dig :: ss => c.isDigit && slotMatch cs ss
  | _, _ => false

/-- The number read off the digit slots, most significant first. -/
def slotVal : List Char → List Slot → ℕ → ℕ
  | _ :: cs, Slot.lit _ :: ss, acc => slotVal cs ss acc
  | c :: cs, Slot.dig :: ss, acc => slotVal cs ss (10 * acc + digitVal c)
  | _, _, acc => acc

/-- How many digit slots a shape has. -/
def digCount : List Slot → ℕ
  | [] => 0
  | Slot.dig :: ss => digCount ss + 1
  | Slot.lit _ :: ss => digCount ss

/-- The shape of the full-precision export timestamp
"YYYY-MM-DD HH:MM:SS.mmm". -/
def tsShape : List Slot :=
  [Slot.dig, Slot.dig, Slot.dig, Slot.dig, Slot.lit '-', Slot.dig, Slot.dig, Slot.lit '-',
   Slot.dig, Slot.dig, Slot.lit ' ', Slot.dig, Slot.dig, Slot.lit ':', Slot.dig, Slot.dig,
   Slot.lit ':', Slot.dig, Slot.dig, Slot.lit '.', Slot.dig, Slot.dig, Slot.dig]

/-- The parse restricted to the full-precision 23-character timestamp
shape the export writes. -/
def parseTs23 (s : String) : Option Ts :=
  match s.data with
  | [y1, y2, y3, y4, '-', m1, m2, '-', d1, d2, ' ',
     h1, h2, ':', n1, n2, ':', s1, s2, '.', f1, f2, f3] =>
    if ([f1, f2, f3].all Char.isDigit) then
      mkTs y1 y2 y3 y4 m1 m2 d1 d2 h1 h2 n1 n2 s1 s2 (natFromDigits [f1, f2, f3])
    else none
  | _ => none

/-- The chronological key of a full-precision timestamp string, 0 when it
does not parse. -/
def tsKey23 (s : String) : ℕ :=
  match parseTs23 s with
  | some t => tsKey t
  | none => 0

@[simp] theorem lexLtB_nil_nil : lexLtB [] [] = false := rfl

@[simp] theorem lexLtB_nil_cons (b : Char) (bs : List Char) : lexLtB [] (b :: bs) = true := rfl

@[simp] theorem lexLtB_cons_nil (a : Char) (as : List Char) : lexLtB (a :: as) [] = false := rfl

theorem lexLtB_cons_cons (a b : Char) (as bs : List Char) :
    lexLtB (a :: as) (b :: bs) =
      if a < b then true else if b < a then false else lexLtB as bs := rfl

theorem lexLtB_irrefl : ∀ as : List Char, lexLtB as as = false := by
  intro as
  induction as with
  | nil => rfl
  | cons a as ih => simp [lexLtB_cons_cons, ih]

theorem lexLtB_trans : ∀ as bs cs : List Char,
    lexLtB as bs = true → lexLtB bs cs = true → lexLtB as cs = true := by
  intro as
  induction as with
  | nil =>
    intro bs cs hab hbc
    cases bs with
    | nil => exact absurd hab (by simp)
    | cons b bs =>
      cases cs with
      | nil => exact absurd hbc (by simp)
      | cons c cs => simp
  | cons a as ih =>
    intro bs cs hab hbc
    cases bs with
    | nil => exact absurd hab (by simp)
    | cons b bs =>
      cases cs with
      | nil => exact absurd hbc (by simp)
      | cons c cs =>
        simp only [lexLtB_cons_cons] at hab hbc ⊢
        rcases lt_trichotomy a b with h1 | h1 | h1
        · rcases lt_trichotomy b c with h2 | h2 | h2
          · simp [lt_trans h1 h2]
          · subst h2; simp [h1]
          · simp only [if_pos h2, if_neg (not_lt.mpr (le_of_lt h2))] at hbc
            simp at hbc
        · subst h1
          simp only [if_neg (lt_irrefl a)] at hab
          rcases lt_trichotomy a c with h2 | h2 | h2
          · simp [h2]
          · subst h2
            simp only [if_neg (lt_irrefl a)] at hbc ⊢
            exact ih bs cs (by simpa using hab) (by simpa using hbc)
          · simp only [if_neg (not_lt.mpr (le_of_lt h2)), if_pos h2] at hbc
            simp at hbc
        · simp only [if_neg (not_lt.mpr (le_of_lt h1)), if_pos h1] at hab
          simp at hab

theorem lexLtB_trichot : ∀ as bs : List Char,
    lexLtB as bs = true ∨ as = bs ∨ lexLtB bs as = true := by
  intro as
  induction as with
  | nil =>
    intro bs
    cases bs with
    | nil => exact Or.inr (Or.inl rfl)
    | cons b bs => exact Or.inl (by simp [lexLtB])
  | cons a as ih =>
    intro bs
    cases bs with
    | nil => exact Or.inr (Or.inr (by simp [lexLtB]))
    | cons b bs =>
      rcases lt_trichotomy a b with h | h | h
      · exact Or.inl (by simp [lexLtB_cons_cons, h])
      · subst h
        rcases ih bs with h2 | h2 | h2
        · exact Or.inl (by simp [lexLtB_cons_cons, h2])
        · exact Or.inr (Or.inl (by rw [h2]))
        · exact Or.inr (Or.inr (by simp [lexLtB_cons_cons, h2]))
      · exact Or.inr (Or.inr (by simp [lexLtB_cons_cons, h]))

theorem bool_tf {x : Bool} (h1 : x = true) (h2 : x = false) : False :=
  Bool.noConfusion (h1.symm.trans h2)

theorem strLeB_total (a b : String) : strLeB a b = true ∨ strLeB b a = true := by
  rcases lexLtB_trichot a.data b.data with h | h | h
  · refine Or.inl ?_
    simp only [strLeB, Bool.not_eq_true']
    by_contra hc
    rw [Bool.not_eq_false] at hc
    exact bool_tf (lexLtB_trans _ _ _ h hc) (lexLtB_irrefl a.data)
  · refine Or.inl ?_
    have hd : a.data = b.data := h
    simp [strLeB, ← hd, lexLtB_irrefl]
  · refine Or.inr ?_
    simp only [strLeB, Bool.not_eq_true']
    by_contra hc
    rw [Bool.not_eq_false] at hc
    exact bool_tf (lexLtB_trans _ _ _ h hc) (lexLtB_irrefl b.data)

theorem strLeB_trans (a b c : String) (hab : strLeB a b = true) (hbc : strLeB b c = true) :
    strLeB a c = true := by
  simp only [strLeB, Bool.not_eq_true'] at hab hbc ⊢
  by_contra hc
  rw [Bool.not_eq_false] at hc
  rcases lexLtB_trichot a.data b.data with h | h | h
  · exact bool_tf (lexLtB_trans _ _ _ hc h) hbc
  · rw [h] at hc
    exact bool_tf hc hbc
  · exact bool_tf h hab

theorem strLeB_refl (a : String) : strLeB a a = true := by
  simp [strLeB, lexLtB_irrefl]

instance goalGETotal {α : Type} : IsTotal (String × α) goalGE :=
  ⟨fun a b => (strLeB_total b.1 a.1).imp id id⟩

instance goalGETrans {α : Type} : IsTrans (String × α) goalGE :=
  ⟨fun _ _ _ hab hbc => strLeB_trans _ _ _ hbc hab⟩

instance mapRowLETotal {α : Type} : IsTotal (MapRow α) mapRowLE :=
  ⟨fun a b => (strLeB_total a.create_time b.create_time).imp id id⟩

instance mapRowLETrans {α : Type} : IsTrans (MapRow α) mapRowLE :=
  ⟨fun _ _ _ hab hbc => strLeB_trans _ _ _ hab hbc⟩

theorem contains_true {l : List String} {c : String} (h : c ∈ l) : l.contains c = true :=
  List.elem_iff.mpr h

theorem mem_of_contains {l : List String} {c : String} (h : l.contains c = true) : c ∈ l :=
  List.elem_iff.mp h

theorem not_mem_of_contains_false {l : List String} {c : String}
    (h : l.contains c = false) : c ∉ l :=
  fun hm => bool_tf (contains_true hm) h

theorem digit_toNat_bounds {c : Char} (h : c.isDigit = true) :
    48 ≤ c.toNat ∧ c.toNat ≤ 57 := by
  simp [Char.isDigit] at h
  exact h

theorem digitVal_lt_ten {c : Char} (h : c.isDigit = true) : digitVal c < 10 := by
  have := digit_toNat_bounds h
  unfold digitVal
  omega

theorem digitVal_lt_of_lt {a b : Char} (ha : a.isDigit = true) (hb : b.isDigit = true)
    (h : a < b) : digitVal a < digitVal b := by
  have h1 := digit_toNat_bounds ha
  have h2 := digit_toNat_bounds hb
  have h3 : a.toNat < b.toNat := h
  unfold digitVal
  omega

theorem slotVal_bounds : ∀ (ss : List Slot) (cs : List Char) (acc : ℕ),
    slotMatch cs ss = true →
    acc * 10 ^ digCount ss ≤ slotVal cs ss acc
      ∧ slotVal cs ss acc < (acc + 1) * 10 ^ digCount ss := by
  intro ss
  induction ss with
  | nil =>
    intro cs acc hm
    cases cs with
    | nil => simp [slotVal, digCount]
    | cons c cs => exact absurd hm (by simp [slotMatch])
  | cons s0 ss ih =>
    intro cs acc hm
    cases cs with
    | nil => exact absurd hm (by cases s0 <;> simp [slotMatch])
    | cons c cs =>
      cases s0 with
      | lit c0 =>
        have hm2 : slotMatch cs ss = true := by
          simp only [slotMatch, Bool.and_eq_true] at hm
          exact hm.2
        simpa [slotVal, digCount] using ih cs acc hm2
      | dig =>
        simp only [slotMatch, Bool.and_eq_true] at hm
        obtain ⟨hd, hm2⟩ := hm
        have hb := ih cs (10 * acc + digitVal c) hm2
        have hdv : digitVal c < 10 := digitVal_lt_ten hd
        simp only [slotVal, digCount]
        constructor
        · calc acc * 10 ^ (digCount ss + 1) = (10 * acc) * 10 ^ digCount ss := by ring
            _ ≤ (10 * acc + digitVal c) * 10 ^ digCount ss :=
                Nat.mul_le_mul_right _ (Nat.le_add_right _ _)
            _ ≤ slotVal cs ss (10 * acc + digitVal c) := hb.1
        · calc slotVal cs ss (10 * acc + digitVal c)
              < (10 * acc + digitVal c + 1) * 10 ^ digCount ss := hb.2
            _ ≤ (10 * (acc + 1)) * 10 ^ digCount ss :=
                Nat.mul_le_mul_right _ (by omega)
            _ = (acc + 1) * 10 ^ (digCount ss + 1) := by ring

theorem slot_lt : ∀ (ss : List Slot) (as bs : List Char) (acc : ℕ),
    slotMatch as ss = true → slotMatch bs ss = true → lexLtB as bs = true →
    slotVal as ss acc < slotVal bs ss acc := by
  intro ss
  induction ss with
  | nil =>
    intro as bs acc hma hmb hlt
    cases as with
    | cons a as => exact absurd hma (by simp [slotMatch])
    | nil =>
      cases bs with
      | cons b bs => exact absurd hmb (by simp [slotMatch])
      | nil => exact absurd hlt (by simp)
  | cons s0 ss ih =>
    intro as bs acc hma hmb hlt
    cases as with
    | nil => exact absurd hma (by cases s0 <;> simp [slotMatch])
    | cons a as =>
      cases bs with
      | nil => exact absurd hmb (by cases s0 <;> simp [slotMatch])
      | cons b bs =>
        cases s0 with
        | lit c0 =>
          simp only [slotMatch, Bool.and_eq_true, beq_iff_eq] at hma hmb
          obtain ⟨ha0, hma2⟩ := hma
          obtain ⟨hb0, hmb2⟩ := hmb
          subst ha0
          subst hb0
          rw [lexLtB_cons_cons, if_neg (lt_irrefl _), if_neg (lt_irrefl _)] at hlt
          simpa [slotVal] using ih as bs acc hma2 hmb2 hlt
        | dig =>
          simp only [slotMatch, Bool.and_eq_true] at hma hmb
          obtain ⟨ha0, hma2⟩ := hma
          obtain ⟨hb0, hmb2⟩ := hmb
          simp only [slotVal]
          rw [lexLtB_cons_cons] at hlt
          by_cases hab : a < b
          · have hdd : digitVal a < digitVal b := digitVal_lt_of_lt ha0 hb0 hab
            have hA := slotVal_bounds ss as (10 * acc + digitVal a) hma2
            have hB := slotVal_bounds ss bs (10 * acc + digitVal b) hmb2
            calc slotVal as ss (10 * acc + digitVal a)
                < (10 * acc + digitVal a + 1) * 10 ^ digCount ss := hA.2
              _ ≤ (10 * acc + digitVal b) * 10 ^ digCount ss :=
                  Nat.mul_le_mul_right _ (by omega)
              _ ≤ slotVal bs ss (10 * acc + digitVal b) := hB.1
          · by_cases hba : b < a
            · rw [if_neg hab, if_pos hba] at hlt
              exact absurd hlt (by simp)
            · have heq : a = b := le_antisymm (not_lt.mp hba) (not_lt.mp hab)
              subst heq
              rw [if_neg hab, if_neg hab] at hlt
              exact ih as bs (10 * acc + digitVal a) hma2 hmb2 hlt

/-- A string parsed by the full-precision parser fits the timestamp shape,
and its slot value is its chronological key. -/
theorem parseTs23_props (s : String) (t : Ts) (h : parseTs23 s = some t) :
    slotMatch s.data tsShape = true ∧ slotVal s.data tsShape 0 = tsKey t := by
  unfold parseTs23 at h
  split at h
  · rename_i y1 y2 y3 y4 m1 m2 d1 d2 g1 g2 n1 n2 e1 e2 f1 f2 f3 heq
    split at h
    · rename_i hf
      unfold mkTs at h
      split at h
      · rename_i hdig
        dsimp only at h
        split at h
        · have ht := Option.some.inj h
          subst ht
          simp only [List.all_cons, List.all_nil, Bool.and_eq_true, and_true] at hdig hf
          obtain ⟨hy1, hy2, hy3, hy4, hm1, hm2, hd1, hd2, hg1, hg2, hn1, hn2, he1, he2⟩ := hdig
          obtain ⟨hf1, hf2, hf3⟩ := hf
          constructor
          · rw [heq]
            simp [slotMatch, tsShape, hy1, hy2, hy3, hy4, hm1, hm2, hd1, hd2, hg1, hg2,
              hn1, hn2, he1, he2, hf1, hf2, hf3]
          · rw [heq]
            simp only [slotVal, tsShape, tsKey, natFromDigits, List.foldl]
            ring
        · exact absurd h (by simp)
      · exact absurd h (by simp)
    · exact absurd h (by simp)
  · exact absurd h (by simp)

/-- For two full-precision timestamp strings, the pandas string order
implies the chronological order. -/
theorem strLeB_tsKey23_le (s t : String) (hs : (parseTs23 s).isSome = true)
    (ht : (parseTs23 t).isSome = true) (hle : strLeB s t = true) :
    tsKey23 s ≤ tsKey23 t := by
  rcases hps : parseTs23 s with _ | ts
  · rw [hps] at hs
    exact absurd hs (by simp)
  rcases hpt : parseTs23 t with _ | tt
  · rw [hpt] at ht
    exact absurd ht (by simp)
  have Ps := parseTs23_props s ts hps
  have Pt := parseTs23_props t tt hpt
  unfold tsKey23
  rw [hps, hpt]
  rcases lexLtB_trichot s.data t.data with hlt | heq | hgt
  · have hv := slot_lt tsShape s.data t.data 0 Ps.1 Pt.1 hlt
    rw [Ps.2, Pt.2] at hv
    exact le_of_lt hv
  · have hst : s = t := String.toList_inj.mp heq
    subst hst
    rw [hps] at hpt
    rw [Option.some.inj hpt]
  · rw [strLeB, Bool.not_eq_true'] at hle
    exact absurd hgt (by rw [hle]; simp)

/-- The pointwise description of the exercise decode: look the coerced
code up, defaulting to the fallback label. -/
theorem decodeExercise_eq {α : Type} (rows : List (Value × α)) :
    decodeExercise rows = rows.map (fun r =>
      (Value.str (((toNumQ r.1).bind (fun q => exercise_mapping.lookup q)).getD "Other/Unknown"),
        r.2)) := by
  simp only [decodeExercise, List.map_map]
  have hfun :
      ((fun r : Value × α =>
          (if r.1.isNa then Value.str "Other/Unknown" else r.1, r.2)) ∘
        (fun r : Value × α => (mapEnum exercise_mapping r.1, r.2)))
      = fun r : Value × α =>
          (Value.str (((toNumQ r.1).bind
              (fun q => exercise_mapping.lookup q)).getD "Other/Unknown"), r.2) := by
    funext r
    simp only [Function.comp]
    rcases h : toNumQ r.1 with _ | q
    · simp [mapEnum, h, Value.isNa]
    · rcases hl : exercise_mapping.lookup q with _ | lab
      · simp [mapEnum, h, hl, Value.isNa]
      · simp [mapEnum, h, hl, Value.isNa]
  rw [hfun]
  apply List.filter_eq_self.mpr
  intro a ha
  rcases List.mem_map.mp ha with ⟨r, _, rfl⟩
  simp [Value.isNa]

/-- C8: every exercise_type value whose numeric code is not in the fixed
activity table, including values that fail numeric parsing, decodes to the
literal label Other/Unknown, and no row is ever dropped by the
exercise_type decode. -/
theorem spec_c8 {α : Type} (rows : List (Value × α)) :
    decodeExercise rows = rows.map (fun r =>
      (Value.str (((toNumQ r.1).bind (fun q => exercise_mapping.lookup q)).getD "Other/Unknown"),
        r.2))
    ∧ (decodeExercise rows).length = rows.length
    ∧ (∀ r ∈ rows, (toNumQ r.1).bind (fun q => exercise_mapping.lookup q) = none →
        (Value.str "Other/Unknown", r.2) ∈ decodeExercise rows)
    ∧ decodeExercise [(Value.num 99999, (0 : ℕ))] = [(Value.str "Other/Unknown", 0)]
    ∧ decodeExercise [(Value.str "not a number", (0 : ℕ))] = [(Value.str "Other/Unknown", 0)] := by
  refine ⟨decodeExercise_eq rows, ?_, ?_, by decide, by decide⟩
  · rw [decodeExercise_eq rows, List.length_map]
  · intro r hr hnone
    rw [decodeExercise_eq rows]
    refine List.mem_map.mpr ⟨r, hr, ?_⟩
    rw [hnone]
    rfl

/-- The witness for C8 at a concrete row list. -/
theorem spec_c8_witness :
    decodeExercise [(Value.num 1001, (7 : ℕ))] =
      [(Value.num 1001, (7 : ℕ))].map (fun r =>
        (Value.str (((toNumQ r.1).bind
            (fun q => exercise_mapping.lookup q)).getD "Other/Unknown"), r.2)) :=
  (spec_c8 [(Value.num 1001, (7 : ℕ))]).1

/-- The batch decode with row dropping keeps exactly the rows whose code
maps, replacing the code by its label. -/
theorem decodeBatch_drop_eq {α : Type} (mapping : List (ℚ × String)) (rows : List (Value × α)) :
    decodeBatch mapping true rows = rows.filterMap (fun r =>
      ((toNumQ r.1).bind (fun q => mapping.lookup q)).map (fun lab => (Value.str lab, r.2))) := by
  induction rows with
  | nil => rfl
  | cons r rs ih =>
    simp only [decodeBatch, List.map_cons, List.filter_cons, List.filterMap_cons,
      if_true] at ih ⊢
    rcases h : toNumQ r.1 with _ | q
    · simpa [mapEnum, h, Value.isNa] using ih
    · rcases hl : mapping.lookup q with _ | lab
      · simpa [mapEnum, h, hl, Value.isNa] using ih
      · simpa [mapEnum, h, hl, Value.isNa] using ih

/-- C9 counterexample: an unmapped meal_type code is dropped by the batch
pipeline and kept as a missing value by the interactive variant, the
opposite of what the claim states for each. -/
theorem spec_c9_counterexample :
    decodeBatch meal_type_mapping true [(Value.num 999999, (0 : ℕ))] = []
    ∧ decodeDash meal_type_mapping false [(Value.num 999999, (0 : ℕ))] = [(Value.na, 0)] := by
  decide

/-- C9 as amended: meal_type codes 100001..100006 decode to the six meal
labels; a row with an unmapped code is dropped by the batch pipeline and
kept with a missing value by the interactive (dashboard) variant. -/
theorem spec_c9_amended {α : Type} (rows rows2 : List (Value × α))
    (hnum : isNumericCol (rows2.map Prod.fst) = true) :
    decodeBatch meal_type_mapping true
        [(Value.num 100001, (0 : ℕ)), (Value.num 100002, 1), (Value.num 100003, 2),
         (Value.num 100004, 3), (Value.num 100005, 4), (Value.num 100006, 5)] =
      [(Value.str "Breakfast", 0), (Value.str "Lunch", 1), (Value.str "Dinner", 2),
       (Value.str "Morning snack", 3), (Value.str "Afternoon snack", 4),
       (Value.str "Evening snack", 5)]
    ∧ decodeBatch meal_type_mapping true rows = rows.filterMap (fun r =>
        ((toNumQ r.1).bind (fun q => meal_type_mapping.lookup q)).map
          (fun lab => (Value.str lab, r.2)))
    ∧ decodeDash meal_type_mapping false rows2 =
        rows2.map (fun r => (mapEnum meal_type_mapping r.1, r.2))
    ∧ (decodeDash meal_type_mapping false rows2).length = rows2.length
    ∧ mapEnum meal_type_mapping (Value.num 999999) = Value.na := by
  have h3 : decodeDash meal_type_mapping false rows2 =
      rows2.map (fun r => (mapEnum meal_type_mapping r.1, r.2)) := by
    simp [decodeDash, hnum, decodeBatch]
  refine ⟨by decide, decodeBatch_drop_eq meal_type_mapping rows, h3, ?_, by decide⟩
  rw [h3, List.length_map]

/-- The witness for C9 at concrete row lists. -/
theorem spec_c9_witness :
    isNumericCol ([(Value.num 100002, (0 : ℕ))].map Prod.fst) = true
    ∧ decodeDash meal_type_mapping false [(Value.num 100002, (0 : ℕ))] =
        [(Value.num 100002, (0 : ℕ))].map (fun r => (mapEnum meal_type_mapping r.1, r.2)) :=
  ⟨by decide, (spec_c9_amended [] [(Value.num 100002, (0 : ℕ))] (by decide)).2.2.1⟩

/-- C7 counterexample: the batch decoder is not idempotent.  Decoding a
sleep_stage table once yields the label Awake; applying the same decoder
again coerces the label to NaN and the dropna empties the table. -/
theorem spec_c7_counterexample :
    decodeBatch sleep_stage_mapping true [(Value.num 40001, (0 : ℕ))] = [(Value.str "Awake", 0)]
    ∧ decodeBatch sleep_stage_mapping true [(Value.str "Awake", (0 : ℕ))] = []
    ∧ ([] : List (Value × ℕ)) ≠ [(Value.str "Awake", (0 : ℕ))] := by
  decide

/-- C7 as amended: the dashboard variant of the decoder is a no-op on an
already-decoded column, because its numeric-dtype guard (and, for the
symptoms column, its bracket scan) rejects a column of label strings; the
batch variant has no such guard and is not idempotent. -/
theorem spec_c7_amended {α : Type} (mapping : List (ℚ × String)) (drop : Bool)
    (rows rows2 : List (Value × α))
    (h1 : ∀ v ∈ rows.map Prod.fst, v.isStr = true)
    (h2 : ∀ v ∈ rows2.map Prod.fst, v.isStr = true ∧ containsBracketB v = false) :
    decodeDash mapping drop rows = rows ∧ decodeDashSymptoms rows2 = rows2 := by
  constructor
  · match rows with
    | [] => cases drop <;> simp [decodeDash, decodeBatch, isNumericCol]
    | r :: rs =>
      have hv := h1 r.1 (by simp)
      have hcol : isNumericCol (r.1 :: rs.map Prod.fst) = false := by
        simp [isNumericCol, hv]
      simp [decodeDash, List.map_cons, hcol]
  · have hany : ((rows2.map Prod.fst).any containsBracketB) = false := by
      rw [List.any_eq_false]
      intro v hv
      simp [(h2 v hv).2]
    simp [decodeDashSymptoms, hany]

/-- The witness for C7 at concrete already-decoded tables. -/
theorem spec_c7_witness :
    decodeDash sleep_stage_mapping true [(Value.str "Awake", (0 : ℕ))] =
      [(Value.str "Awake", (0 : ℕ))]
    ∧ decodeDashSymptoms [(Value.str "Fatigue", (0 : ℕ))] = [(Value.str "Fatigue", (0 : ℕ))] :=
  spec_c7_amended sleep_stage_mapping true _ _ (by decide) (by decide)

/-- C2: the sleep-goal time conversion agrees pointwise with the
specified HH:MM rendering (divide by 3600000, add 24 hours for sleep_time
only, truncate the hour, round the fractional remainder to the nearest
minute, carry a rounded 60), and values that fail numeric parsing are
returned unchanged; with concrete instances for each behaviour. -/
theorem spec_c2 (v : Value) (colName : String) :
    convert_to_hhmm v colName = convertSpec v colName
    ∧ convert_to_hhmm (Value.num 27000000) "wake_up_time" = Value.str "07:30"
    ∧ convert_to_hhmm (Value.num (-5400000)) "sleep_time" = Value.str "22:30"
    ∧ convert_to_hhmm (Value.str "07:00") "bed_time" = Value.str "07:00"
    ∧ convert_to_hhmm Value.na "wake_up_time" = Value.na := by
  refine ⟨?_, ?_, ?_, by decide, by decide⟩
  · rcases hv : pyFloatV v with _ | o
    · simp [convert_to_hhmm, convertSpec, hv]
    · rcases o with _ | q
      · simp [convert_to_hhmm, convertSpec, hv]
      · simp only [convert_to_hhmm, convertSpec, hv, hhmmSpecString]
        by_cases hc : colName = "sleep_time"
        · simp [hc, apply_ite Value.str]
        · simp [hc, apply_ite Value.str, zero_add]
  · have e1 : convert_to_hhmm (Value.num 27000000) "wake_up_time" =
        (if pyRound ((((27000000 : ℚ) / 3600000) -
              ((truncQ ((27000000 : ℚ) / 3600000) : ℤ) : ℚ)) * 60) = 60
         then Value.str (pad2 (truncQ ((27000000 : ℚ) / 3600000) + 1) ++ ":" ++ pad2 0)
         else Value.str (pad2 (truncQ ((27000000 : ℚ) / 3600000)) ++ ":" ++
            pad2 (pyRound ((((27000000 : ℚ) / 3600000) -
              ((truncQ ((27000000 : ℚ) / 3600000) : ℤ) : ℚ)) * 60)))) := rfl
    have h1 : truncQ ((27000000 : ℚ) / 3600000) = 7 := by norm_num [truncQ]
    rw [h1] at e1
    have h2 : pyRound ((((27000000 : ℚ) / 3600000) - ((7 : ℤ) : ℚ)) * 60) = 30 := by
      norm_num [pyRound]
    rw [h2] at e1
    simpa using e1
  · have e1 : convert_to_hhmm (Value.num (-5400000)) "sleep_time" =
        (if pyRound (((24 + ((-5400000 : ℚ) / 3600000)) -
              ((truncQ (24 + ((-5400000 : ℚ) / 3600000)) : ℤ) : ℚ)) * 60) = 60
         then Value.str (pad2 (truncQ (24 + ((-5400000 : ℚ) / 3600000)) + 1) ++ ":" ++ pad2 0)
         else Value.str (pad2 (truncQ (24 + ((-5400000 : ℚ) / 3600000))) ++ ":" ++
            pad2 (pyRound (((24 + ((-5400000 : ℚ) / 3600000)) -
              ((truncQ (24 + ((-5400000 : ℚ) / 3600000)) : ℤ) : ℚ)) * 60)))) := rfl
    have h1 : truncQ (24 + ((-5400000 : ℚ) / 3600000)) = 22 := by norm_num [truncQ]
    rw [h1] at e1
    have h2 : pyRound (((24 + ((-5400000 : ℚ) / 3600000)) - ((22 : ℤ) : ℚ)) * 60) = 30 := by
      norm_num [pyRound]
    rw [h2] at e1
    simpa using e1

/-- The witness for C2 at a concrete cell. -/
theorem spec_c2_witness :
    convert_to_hhmm (Value.num 3600000) "bed_time" = convertSpec (Value.num 3600000) "bed_time" :=
  (spec_c2 (Value.num 3600000) "bed_time").1

/-- The normalizer satisfies the C4 contract for any drop list. -/
theorem normalizeCols_ok (dropCols cols : List String) :
    NormalizedColsOk dropCols cols (normalizeCols dropCols cols) := by
  constructor
  · intro c hc
    have hck : c ∈ (cols.map stripCol).filter
        (fun c => !((dropCols ++ DEFAULT_DROP_COLS).contains c)) := by
      simp only [normalizeCols, List.mem_append] at hc
      rcases hc with hc | hc
      · exact mem_of_contains (List.mem_filter.mp hc).2
      · exact List.mem_of_mem_filter hc
    have hp := (List.mem_filter.mp hck).2
    rw [Bool.not_eq_true'] at hp
    have hnm := not_mem_of_contains_false hp
    rw [List.mem_append] at hnm
    exact ⟨fun h => hnm (Or.inl h), fun h => hnm (Or.inr h)⟩
  · refine ⟨_, _, rfl, List.filter_sublist _, ?_, ?_, ?_⟩
    · intro c hct hco
      simp only [normalizeCols, List.mem_append] at hco
      rcases hco with hco | hco
      · exact hco
      · exfalso
        have hk := List.mem_of_mem_filter hco
        have hnp := (List.mem_filter.mp hco).2
        rw [Bool.not_eq_true'] at hnp
        exact not_mem_of_contains_false hnp
          (List.mem_filter.mpr ⟨hct, contains_true hk⟩)
    · intro c hcr hct
      have hk := List.mem_of_mem_filter hcr
      have hnp := (List.mem_filter.mp hcr).2
      rw [Bool.not_eq_true'] at hnp
      exact not_mem_of_contains_false hnp
        (List.mem_filter.mpr ⟨hct, contains_true hk⟩)
    · exact (List.filter_sublist _).trans (List.filter_sublist _)

/-- C4: for every metric of the registry and any header, the normalized
header contains no dropped column, leads with the present temporal keys in
their fixed order, and preserves the relative order of the rest. -/
theorem spec_c4 (entry : String × MetricConfig) (_hmem : entry ∈ CLEANING_CONFIG)
    (cols : List String) :
    NormalizedColsOk entry.2.drop_cols cols (normalizeCols entry.2.drop_cols cols) :=
  normalizeCols_ok entry.2.drop_cols cols

/-- The witness for C4 at the heart_rate metric and a concrete header. -/
theorem spec_c4_witness :
    ("heart_rate", MetricConfig.mk "com.samsung.shealth.tracker.heart_rate.*.csv"
        "heart_rate.csv" ["heart_beat_count", "start_time", "end_time"]) ∈ CLEANING_CONFIG
    ∧ NormalizedColsOk ["heart_beat_count", "start_time", "end_time"]
        ["com.samsung.shealth.tracker.heart_rate.heart_rate",
         "com.samsung.shealth.tracker.heart_rate.deviceuuid",
         "com.samsung.shealth.tracker.heart_rate.start_time",
         "com.samsung.shealth.tracker.heart_rate.create_time"]
        (normalizeCols ["heart_beat_count", "start_time", "end_time"]
          ["com.samsung.shealth.tracker.heart_rate.heart_rate",
           "com.samsung.shealth.tracker.heart_rate.deviceuuid",
           "com.samsung.shealth.tracker.heart_rate.start_time",
           "com.samsung.shealth.tracker.heart_rate.create_time"]) :=
  ⟨by decide,
    spec_c4 ("heart_rate", MetricConfig.mk "com.samsung.shealth.tracker.heart_rate.*.csv"
        "heart_rate.csv" ["heart_beat_count", "start_time", "end_time"]) (by decide) _⟩

/-- The group keys of the snoring rollup are exactly the days of the rows
whose create_time parses. -/
theorem snorDays_mem (rows : List SnorRow) (d : ℕ) :
    d ∈ snorDays rows ↔ ∃ r ∈ rows, dayOf r.create_time = some d := by
  unfold snorDays snorParsed
  rw [(List.perm_insertionSort _ _).mem_iff, List.mem_dedup, List.mem_map]
  constructor
  · rintro ⟨p, hp, rfl⟩
    rcases List.mem_filterMap.mp hp with ⟨r, hr, hg⟩
    rcases Option.map_eq_some'.mp hg with ⟨a, ha, hpa⟩
    exact ⟨r, hr, by rw [ha, ← hpa]⟩
  · rintro ⟨r, hr, hd⟩
    exact ⟨(d, numOrZero r.duration), List.mem_filterMap.mpr ⟨r, hr, by rw [hd]; rfl⟩, rfl⟩

/-- The summed duration of a day group, restated over the input rows. -/
theorem snorSum_eq (rows : List SnorRow) (d : ℕ) :
    snorSum rows d = ((rows.filter (fun r => dayOf r.create_time == some d)).map
      (fun r => numOrZero r.duration)).sum := by
  unfold snorSum snorParsed
  induction rows with
  | nil => rfl
  | cons r rs ih =>
    simp only [List.filterMap_cons, List.filter_cons]
    rcases hday : dayOf r.create_time with _ | d0
    · simpa [hday] using ih
    · by_cases hd : d0 = d
      · subst hd
        simpa [hday] using congrArg (fun x => numOrZero r.duration + x) ih
      · have h1 : (d0 == d) = false := by simpa using hd
        simpa [hday, h1] using ih

/-- C3 counterexample: on a single-row day whose duration sum is negative,
the code truncates toward zero while the claim formula floors, so the two
renderings differ. -/
theorem spec_c3_counterexample :
    snoringPost [⟨Value.str "2024-01-01 10:00:00.000", Value.str "-30000"⟩] =
      [(20240101, "00:00")]
    ∧ msToHhmmFloor (-30000) = "-1:59"
    ∧ ("00:00" : String) ≠ "-1:59" := by
  refine ⟨?_, ?_, by decide⟩
  · have e1 : snoringPost [⟨Value.str "2024-01-01 10:00:00.000", Value.str "-30000"⟩] =
        [(20240101, msToHhmm ((-30000 : ℚ) + 0))] := rfl
    have e2 : ((-30000 : ℚ) + 0) = -30000 := by norm_num
    rw [e2] at e1
    have e3 : msToHhmm (-30000) = "00:00" := by
      have h : truncQ ((-30000 : ℚ) / 60000) = 0 := by
        simp only [truncQ]
        norm_num
      simp only [msToHhmm]
      rw [h]
      decide
    rw [e3] at e1
    exact e1
  · have h : ⌊((-30000 : ℚ)) / 60000⌋ = -1 := by norm_num
    simp only [msToHhmmFloor]
    rw [h]
    decide

/-- C3 as amended: the snoring rollup has one row per distinct parseable
day, each day carries the HH:MM rendering (with int() truncation toward
zero, not floor) of the summed coerced durations of that day, and the
concrete two-row same-day instance renders as 00:10. -/
theorem spec_c3_amended (rows : List SnorRow) :
    ((snoringPost rows).map Prod.fst).Nodup
    ∧ (∀ d : ℕ, d ∈ (snoringPost rows).map Prod.fst ↔
        ∃ r ∈ rows, dayOf r.create_time = some d)
    ∧ (∀ d s, (d, s) ∈ snoringPost rows →
        s = msToHhmm (((rows.filter (fun r => dayOf r.create_time == some d)).map
          (fun r => numOrZero r.duration)).sum))
    ∧ snoringPost [⟨Value.str "2024-03-05 01:00:00.000", Value.num 30000⟩,
                   ⟨Value.str "2024-03-05 22:00:00.000", Value.num 600000⟩] =
        [(20240305, "00:10")] := by
  have hfst : (snoringPost rows).map Prod.fst = snorDays rows := by
    rw [snoringPost, List.map_map]
    exact List.map_id _
  refine ⟨?_, ?_, ?_, ?_⟩
  · rw [hfst]
    exact (List.perm_insertionSort _ _).nodup_iff.mpr (List.nodup_dedup _)
  · intro d
    rw [hfst]
    exact snorDays_mem rows d
  · intro d s hmem
    rcases List.mem_map.mp hmem with ⟨d0, _, heq⟩
    have hd : d0 = d := congrArg Prod.fst heq
    subst hd
    have hs : s = msToHhmm (snorSum rows d0) := (congrArg Prod.snd heq).symm
    rw [hs, snorSum_eq]
  · have e1 : snoringPost [⟨Value.str "2024-03-05 01:00:00.000", Value.num 30000⟩,
                   ⟨Value.str "2024-03-05 22:00:00.000", Value.num 600000⟩] =
        [(20240305, msToHhmm ((30000 : ℚ) + (600000 + 0)))] := rfl
    have e2 : (30000 : ℚ) + (600000 + 0) = 630000 := by norm_num
    rw [e2] at e1
    have e3 : msToHhmm 630000 = "00:10" := by
      have h : truncQ ((630000 : ℚ) / 60000) = 10 := by norm_num [truncQ]
      simp only [msToHhmm]
      rw [h]
      decide
    rw [e3] at e1
    exact e1

/-- The witness for C3 at the concrete two-row table. -/
theorem spec_c3_witness :
    ("00:10" : String) = msToHhmm
      (((([⟨Value.str "2024-03-05 01:00:00.000", Value.num 30000⟩,
           ⟨Value.str "2024-03-05 22:00:00.000", Value.num 600000⟩] : List SnorRow).filter
            (fun r => dayOf r.create_time == some 20240305)).map
        (fun r => numOrZero r.duration)).sum) :=
  (spec_c3_amended [⟨Value.str "2024-03-05 01:00:00.000", Value.num 30000⟩,
      ⟨Value.str "2024-03-05 22:00:00.000", Value.num 600000⟩]).2.2.1 20240305 "00:10"
    (by rw [(spec_c3_amended [⟨Value.str "2024-03-05 01:00:00.000", Value.num 30000⟩,
        ⟨Value.str "2024-03-05 22:00:00.000", Value.num 600000⟩]).2.2.2]
        exact List.mem_singleton.mpr rfl)

theorem ffillAux_length {α : Type} (acc : Value) (rows : List (MapRow α)) :
    (ffillAux acc rows).length = rows.length := by
  induction rows generalizing acc with
  | nil => rfl
  | cons r rs ih => simp [ffillAux, ih]

theorem mapReconAux_cons {α : Type} (acc : Value) (r : MapRow α) (rs : List (MapRow α)) :
    mapReconAux acc (r :: rs) =
      mapReconStep (ffillUpd acc r) r :: mapReconAux (ffillUpd acc r) rs := by
  simp [mapReconAux, ffillAux]

theorem mapReconAux_length {α : Type} (acc : Value) (rows : List (MapRow α)) :
    (mapReconAux acc rows).length = rows.length := by
  induction rows generalizing acc with
  | nil => rfl
  | cons r rs ih => rw [mapReconAux_cons, List.length_cons, ih, List.length_cons]

theorem mapRecon_length {α : Type} (rows : List (MapRow α)) :
    (mapRecon rows).length = rows.length :=
  mapReconAux_length Value.na rows

theorem mapPrep_length {α : Type} (rows : List (MapRow α)) :
    (mapPrep rows).length = rows.length := by
  rw [mapPrep, mapSort, List.length_insertionSort, mapCoerce, List.length_map]

theorem mapPost_length {α : Type} (rows : List (MapRow α)) :
    (mapPost rows).length = rows.length := by
  rw [mapPost, mapRecon_length, mapPrep_length]

/-- Prepending a row to the prefix threads it through the fallback. -/
theorem refSpecD_cons {α : Type} (acc : Value) (r : MapRow α) (pre : List (MapRow α)) :
    refSpecD acc (r :: pre) = refSpecD (ffillUpd acc r) pre := by
  unfold refSpecD ffillUpd
  rw [List.reverse_cons, List.find?_append]
  set p : MapRow α → Bool :=
    fun r => decide (r.ty = Value.num 2 ∧ ¬(r.measurement = Value.na)) with hpdef
  by_cases hp : r.ty = Value.num 2 ∧ ¬(r.measurement = Value.na)
  · have h1 : p r = true := by simp [hpdef, hp]
    have h2 : List.find? p [r] = some r := by simp [List.find?, h1]
    rw [h2]
    rcases hfp : List.find? p pre.reverse with _ | x
    · simp [Option.or, if_pos hp]
    · simp [Option.or]
  · have h1 : p r = false := by simp only [hpdef, decide_eq_false_iff_not]; exact hp
    have h2 : List.find? p [r] = none := by simp [List.find?, h1]
    rw [h2]
    rcases hfp : List.find? p pre.reverse with _ | x
    · simp [Option.or, if_neg hp]
    · simp [Option.or]

/-- A prefix ending in a row that is not a usable reference contributes
nothing new. -/
theorem refSpecD_append_skip {α : Type} (acc : Value) (r : MapRow α) (pre : List (MapRow α))
    (h : ¬(r.ty = Value.num 2 ∧ ¬(r.measurement = Value.na))) :
    refSpecD acc (pre ++ [r]) = refSpecD acc pre := by
  unfold refSpecD
  rw [List.reverse_append]
  simp [List.find?, h]

/-- The row-indexed description of the reconstruction: row i of the output
is the step applied to row i of the input with the reference carried from
the rows at positions up to and including i. -/
theorem mapReconAux_getD {α : Type} (d : MapRow α) (acc : Value) (rows : List (MapRow α))
    (i : ℕ) (hi : i < rows.length) :
    (mapReconAux acc rows).getD i d =
      mapReconStep (refSpecD acc (rows.take (i + 1))) (rows.getD i d) := by
  induction rows generalizing acc i with
  | nil => exact absurd hi (by simp)
  | cons r rs ih =>
    rw [mapReconAux_cons]
    rcases i with _ | j
    · have h1 : refSpecD acc ((r :: rs).take 1) = ffillUpd acc r := by
        show refSpecD acc (r :: []) = ffillUpd acc r
        rw [refSpecD_cons]
        rfl
      rw [h1]
      rfl
    · have hj : j < rs.length := by simpa using hi
      have h1 : (r :: rs).take (j + 2) = r :: rs.take (j + 1) := rfl
      rw [h1, refSpecD_cons]
      exact ih (ffillUpd acc r) j hj

/-- Row i of the full MAP post-processing, described through its sorted
coerced input and the carried reference. -/
theorem mapPost_getD {α : Type} (d : MapRow α) (rows : List (MapRow α)) (i : ℕ)
    (hi : i < rows.length) :
    (mapPost rows).getD i d =
      mapReconStep (refSpecD Value.na ((mapPrep rows).take (i + 1)))
        ((mapPrep rows).getD i d) := by
  have hi2 : i < (mapPrep rows).length := by rw [mapPrep_length]; exact hi
  rw [mapPost, mapRecon]
  exact mapReconAux_getD d Value.na (mapPrep rows) i hi2

/-- C10: the MAP reconstruction changes only the measurement of type-3
rows and the labels of the type column; create_time, the other cells, and
the measurement of any row whose type is not 3 are untouched. -/
theorem spec_c10 {α : Type} (d : MapRow α) (rows : List (MapRow α)) (i : ℕ)
    (hi : i < rows.length) :
    ((mapPost rows).getD i d).create_time = ((mapPrep rows).getD i d).create_time
    ∧ ((mapPost rows).getD i d).rest = ((mapPrep rows).getD i d).rest
    ∧ ((mapPost rows).getD i d).ty = typeLabel ((mapPrep rows).getD i d).ty
    ∧ (¬(((mapPrep rows).getD i d).ty = Value.num 3) →
        ((mapPost rows).getD i d).measurement = ((mapPrep rows).getD i d).measurement) := by
  rw [mapPost_getD d rows i hi]
  refine ⟨rfl, rfl, rfl, ?_⟩
  intro h3
  show (if ((mapPrep rows).getD i d).ty = Value.num 3 then _ else _) = _
  rw [if_neg h3]

/-- The witness for C10 at a concrete table. -/
theorem spec_c10_witness :
    (((mapPost [⟨"2024-01-01 08:00:00.000", Value.num 2, Value.num 80, (5 : ℕ)⟩]).getD 0
        ⟨"", Value.na, Value.na, 0⟩).rest =
      ((mapPrep [⟨"2024-01-01 08:00:00.000", Value.num 2, Value.num 80, (5 : ℕ)⟩]).getD 0
        ⟨"", Value.na, Value.na, 0⟩).rest)
    ∧ (¬((((mapPrep [⟨"2024-01-01 08:00:00.000", Value.num 2, Value.num 80, (5 : ℕ)⟩]).getD 0
          ⟨"", Value.na, Value.na, 0⟩).ty = Value.num 3)) →
        ((mapPost [⟨"2024-01-01 08:00:00.000", Value.num 2, Value.num 80, (5 : ℕ)⟩]).getD 0
            ⟨"", Value.na, Value.na, 0⟩).measurement =
          ((mapPrep [⟨"2024-01-01 08:00:00.000", Value.num 2, Value.num 80, (5 : ℕ)⟩]).getD 0
            ⟨"", Value.na, Value.na, 0⟩).measurement) :=
  ⟨(spec_c10 ⟨"", Value.na, Value.na, 0⟩
      [⟨"2024-01-01 08:00:00.000", Value.num 2, Value.num 80, (5 : ℕ)⟩] 0 (by decide)).2.1,
   (spec_c10 ⟨"", Value.na, Value.na, 0⟩
      [⟨"2024-01-01 08:00:00.000", Value.num 2, Value.num 80, (5 : ℕ)⟩] 0 (by decide)).2.2.2⟩

/-- C6: a type-3 row preceded (in the sorted order) by no type-2 row gets
a missing reconstructed measurement: the total reconstruction neither
fails nor substitutes 0 (or any number) for the absent reference. -/
theorem spec_c6 {α : Type} (d : MapRow α) (rows : List (MapRow α)) (i : ℕ)
    (hi : i < rows.length)
    (h3 : ((mapPrep rows).getD i d).ty = Value.num 3)
    (hno : ∀ j, j < i → ¬(((mapPrep rows).getD j d).ty = Value.num 2)) :
    ((mapPost rows).getD i d).measurement = Value.na
    ∧ (∀ q : ℚ, Value.na ≠ Value.num q) := by
  have hi2 : i < (mapPrep rows).length := by rw [mapPrep_length]; exact hi
  refine ⟨?_, fun q h => Value.noConfusion h⟩
  rw [mapPost_getD d rows i hi]
  show (if ((mapPrep rows).getD i d).ty = Value.num 3 then
    addV (refSpecD Value.na ((mapPrep rows).take (i + 1))) ((mapPrep rows).getD i d).measurement
    else _) = Value.na
  rw [if_pos h3]
  have href : refSpecD Value.na ((mapPrep rows).take (i + 1)) = Value.na := by
    unfold refSpecD
    have hnone : List.find?
        (fun r => decide (r.ty = Value.num 2 ∧ ¬(r.measurement = Value.na)))
        ((mapPrep rows).take (i + 1)).reverse = none := by
      rw [List.find?_eq_none]
      intro x hx
      rw [List.mem_reverse, List.mem_take_iff_getElem] at hx
      rcases hx with ⟨m, hm, hxm⟩
      have hmlt : m < i + 1 := lt_of_lt_of_le hm (min_le_left _ _)
      have hmlen : m < (mapPrep rows).length := lt_of_lt_of_le hm (min_le_right _ _)
      have hgd : (mapPrep rows).getD m d = x := by
        rw [List.getD_eq_getElem _ _ hmlen, hxm]
      rcases Nat.lt_succ_iff_lt_or_eq.mp hmlt with hmi | hmi
      · intro hpx
        exact hno m hmi (by rw [hgd]; exact (of_decide_eq_true hpx).1)
      · subst hmi
        intro hpx
        have := (of_decide_eq_true hpx).1
        rw [hgd] at h3
        rw [this] at h3
        exact absurd (Value.num.inj h3) (by norm_num)
    rw [hnone]
  rw [href]
  rcases ((mapPrep rows).getD i d).measurement with q | s <;> rfl

/-- The witness for C6 at a single-row table whose only row is type 3. -/
theorem spec_c6_witness :
    ((mapPost [⟨"2024-01-01 08:00:00.000", Value.num 3, Value.num 5, ()⟩]).getD 0
        ⟨"", Value.na, Value.na, ()⟩).measurement = Value.na :=
  (spec_c6 ⟨"", Value.na, Value.na, ()⟩
      [⟨"2024-01-01 08:00:00.000", Value.num 3, Value.num 5, ()⟩] 0 (by decide) (by decide)
      (fun j hj => absurd hj (Nat.not_lt_zero j))).1

theorem mapReconAux_map_ct {α : Type} (acc : Value) (rows : List (MapRow α)) :
    (mapReconAux acc rows).map (fun r => r.create_time) =
      rows.map (fun r => r.create_time) := by
  induction rows generalizing acc with
  | nil => rfl
  | cons r rs ih => rw [mapReconAux_cons, List.map_cons, List.map_cons, ih]; rfl

/-- The output of the MAP post-processing is globally sorted by the
create_time string. -/
theorem mapPost_ct_sorted {α : Type} (rows : List (MapRow α)) :
    List.Sorted (fun a b : String => strLeB a b = true)
      ((mapPost rows).map (fun r => r.create_time)) := by
  rw [mapPost, mapRecon, mapReconAux_map_ct]
  have hs : List.Sorted mapRowLE (mapPrep rows) := by
    rw [mapPrep, mapSort]
    exact List.sorted_insertionSort mapRowLE _
  exact List.Pairwise.map _ (fun a b h => h) hs

/-- C1: the MAP post-processing sorts the merged table by create_time
ascending, keeps one output row per input row, maps the type codes 1, 2, 3
to their labels, replaces every type-3 measurement by the forward-filled
reference plus the original measurement, and on the concrete
[type 2, 80], [type 3, 5] table reconstructs 85. -/
theorem spec_c1 {α : Type} (d : MapRow α) (rows : List (MapRow α)) (i : ℕ)
    (hi : i < rows.length) :
    List.Sorted (fun a b : String => strLeB a b = true)
      ((mapPost rows).map (fun r => r.create_time))
    ∧ (mapPost rows).length = rows.length
    ∧ (((mapPrep rows).getD i d).ty = Value.num 1 →
        ((mapPost rows).getD i d).ty = Value.str "Calibration/Initialization")
    ∧ (((mapPrep rows).getD i d).ty = Value.num 2 →
        ((mapPost rows).getD i d).ty = Value.str "Reference measurement")
    ∧ (((mapPrep rows).getD i d).ty = Value.num 3 →
        ((mapPost rows).getD i d).ty = Value.str "Measurement")
    ∧ (((mapPrep rows).getD i d).ty = Value.num 3 →
        ((mapPost rows).getD i d).measurement =
          addV (refSpec ((mapPrep rows).take i)) (((mapPrep rows).getD i d).measurement))
    ∧ mapPost [⟨"2024-01-01 08:00:00.000", Value.num 2, Value.num 80, ()⟩,
               ⟨"2024-01-01 08:01:00.000", Value.num 3, Value.num 5, ()⟩] =
        [⟨"2024-01-01 08:00:00.000", Value.str "Reference measurement", Value.num 80, ()⟩,
         ⟨"2024-01-01 08:01:00.000", Value.str "Measurement", Value.num 85, ()⟩] := by
  have hi2 : i < (mapPrep rows).length := by rw [mapPrep_length]; exact hi
  refine ⟨mapPost_ct_sorted rows, mapPost_length rows, ?_, ?_, ?_, ?_, ?_⟩
  · intro h
    rw [mapPost_getD d rows i hi]
    show typeLabel ((mapPrep rows).getD i d).ty = _
    rw [h]
    decide
  · intro h
    rw [mapPost_getD d rows i hi]
    show typeLabel ((mapPrep rows).getD i d).ty = _
    rw [h]
    decide
  · intro h
    rw [mapPost_getD d rows i hi]
    show typeLabel ((mapPrep rows).getD i d).ty = _
    rw [h]
    decide
  · intro h3
    rw [mapPost_getD d rows i hi]
    show (if ((mapPrep rows).getD i d).ty = Value.num 3 then
        addV (refSpecD Value.na ((mapPrep rows).take (i + 1)))
          ((mapPrep rows).getD i d).measurement
      else ((mapPrep rows).getD i d).measurement) = _
    rw [if_pos h3]
    have htake : (mapPrep rows).take (i + 1) =
        (mapPrep rows).take i ++ [(mapPrep rows).getD i d] := by
      rw [List.getD_eq_getElem _ _ hi2, List.take_succ, List.getElem?_eq_getElem hi2]
      rfl
    rw [htake, refSpec, refSpecD_append_skip]
    rintro ⟨h2, _⟩
    have h32 := h3.symm.trans h2
    exact absurd (Value.num.inj h32) (by norm_num)
  · have e1 : mapPost [⟨"2024-01-01 08:00:00.000", Value.num 2, Value.num 80, ()⟩,
               ⟨"2024-01-01 08:01:00.000", Value.num 3, Value.num 5, ()⟩] =
        [⟨"2024-01-01 08:00:00.000", Value.str "Reference measurement", Value.num 80, ()⟩,
         ⟨"2024-01-01 08:01:00.000", Value.str "Measurement", Value.num ((80 : ℚ) + 5), ()⟩] :=
      rfl
    have e2 : (80 : ℚ) + 5 = 85 := by norm_num
    rw [e2] at e1
    exact e1

/-- The witness for C1: on the concrete two-row table, the type-3 row at
sorted position 1 is rebuilt from the forward-filled reference. -/
theorem spec_c1_witness :
    (1 < 2)
    ∧ ((mapPost [⟨"2024-01-01 08:00:00.000", Value.num 2, Value.num 80, ()⟩,
          ⟨"2024-01-01 08:01:00.000", Value.num 3, Value.num 5, ()⟩]).getD 1
            ⟨"", Value.na, Value.na, ()⟩).measurement =
        addV (refSpec ((mapPrep [⟨"2024-01-01 08:00:00.000", Value.num 2, Value.num 80, ()⟩,
            ⟨"2024-01-01 08:01:00.000", Value.num 3, Value.num 5, ()⟩]).take 1))
          (((mapPrep [⟨"2024-01-01 08:00:00.000", Value.num 2, Value.num 80, ()⟩,
            ⟨"2024-01-01 08:01:00.000", Value.num 3, Value.num 5, ()⟩]).getD 1
              ⟨"", Value.na, Value.na, ()⟩).measurement) :=
  ⟨by decide,
    (spec_c1 ⟨"", Value.na, Value.na, ()⟩
        [⟨"2024-01-01 08:00:00.000", Value.num 2, Value.num 80, ()⟩,
         ⟨"2024-01-01 08:01:00.000", Value.num 3, Value.num 5, ()⟩] 1
        (by decide)).2.2.2.2.2.1 (by decide)⟩

/-- C5 counterexample: with one parseable and one garbage create_time, the
sleep-goal dedup keeps the garbage row (lexicographically greatest), not
the chronologically latest parseable one. -/
theorem spec_c5_counterexample :
    sleepGoalPost [("zzz", (0 : ℕ)), ("2024-01-01 00:00:00.000", 1)] = [("zzz", 0)]
    ∧ parseTs "zzz" = none
    ∧ (parseTs23 "2024-01-01 00:00:00.000").isSome = true
    ∧ ("zzz", (0 : ℕ)) ≠ ("2024-01-01 00:00:00.000", 1) := by
  decide

/-- C5 as amended: on any nonempty merged table the sleep-goal dedup
returns exactly one row, a row of the table whose create_time string is
greatest in the pandas sort order; when every create_time is a
full-precision export timestamp this row is the chronologically latest. -/
theorem spec_c5_amended {α : Type} (rows : List (String × α)) (hne : rows ≠ []) :
    ∃ r, sleepGoalPost rows = [r] ∧ r ∈ rows
      ∧ (∀ x ∈ rows, strLeB x.1 r.1 = true)
      ∧ ((∀ x ∈ rows, (parseTs23 x.1).isSome = true) →
          ∀ x ∈ rows, tsKey23 x.1 ≤ tsKey23 r.1) := by
  rcases hsort : List.insertionSort goalGE rows with _ | ⟨r, tl⟩
  · exfalso
    have hlen := congrArg List.length hsort
    rw [List.length_insertionSort] at hlen
    exact hne (List.length_eq_zero.mp hlen)
  have hrmem : r ∈ rows := by
    have : r ∈ List.insertionSort goalGE rows := by
      rw [hsort]
      exact List.mem_cons_self _ _
    exact (List.perm_insertionSort goalGE rows).mem_iff.mp this
  have hmax : ∀ x ∈ rows, strLeB x.1 r.1 = true := by
    intro x hx
    have hx2 : x ∈ List.insertionSort goalGE rows :=
      (List.perm_insertionSort goalGE rows).mem_iff.mpr hx
    rw [hsort] at hx2
    rcases List.mem_cons.mp hx2 with rfl | hx3
    · exact strLeB_refl _
    · have hsorted : List.Sorted goalGE (List.insertionSort goalGE rows) :=
        List.sorted_insertionSort _ _
      rw [hsort] at hsorted
      exact (List.sorted_cons.mp hsorted).1 x hx3
  refine ⟨r, ?_, hrmem, hmax, ?_⟩
  · rw [sleepGoalPost, hsort]
    rfl
  · intro hall x hx
    exact strLeB_tsKey23_le _ _ (hall x hx) (hall r hrmem) (hmax x hx)

/-- The witness for C5 at a concrete two-row table of export timestamps. -/
theorem spec_c5_witness :
    ∃ r, sleepGoalPost [("2024-01-01 08:00:00.000", (0 : ℕ)),
        ("2024-01-02 09:30:00.000", 1)] = [r]
      ∧ r ∈ [("2024-01-01 08:00:00.000", (0 : ℕ)), ("2024-01-02 09:30:00.000", 1)]
      ∧ (∀ x ∈ [("2024-01-01 08:00:00.000", (0 : ℕ)), ("2024-01-02 09:30:00.000", 1)],
          strLeB x.1 r.1 = true)
      ∧ ((∀ x ∈ [("2024-01-01 08:00:00.000", (0 : ℕ)), ("2024-01-02 09:30:00.000", 1)],
            (parseTs23 x.1).isSome = true) →
          ∀ x ∈ [("2024-01-01 08:00:00.000", (0 : ℕ)), ("2024-01-02 09:30:00.000", 1)],
            tsKey23 x.1 ≤ tsKey23 r.1) :=
  spec_c5_amended [("2024-01-01 08:00:00.000", (0 : ℕ)), ("2024-01-02 09:30:00.000", 1)]
    (by decide)
